import Mathlib

/-!
Verification development for the jupyter-fs file-manager command layer
(`src/js/src/commands.ts`) and the selection-scoped clipboard/transfer
engine its specification describes.

Pure helpers of the source file (`idFromResource`,
`currentWidgetSelectionIsWritable`, `_getRelativePaths`, the command
`execute`/`isEnabled`/`isVisible` closures) are embedded directly from the
source. The clipboard engine (`copySelection`, `cutSelection`,
`pasteSelection`, `deleteSelection`) lives in collaborator modules outside
the provided sources, so it is modelled from the specification text, as
marked on each definition.
-/

/-- JavaScript `Array.prototype.join(sep)` on a list of strings. -/
def joinWith (sep : String) : List String → String
  | [] => ""
  | [x] => x
  | x :: y :: xs => x ++ sep ++ joinWith sep (y :: xs)

/-- Kind of a filesystem entry, the `kind` field of a content row. -/
inductive FmKind where
  | file
  | dir
deriving DecidableEq, Repr

/-- The fields of `ContentsProxy.IJupyterContentRow` the commands use:
`path`, `kind`, `writable`. -/
structure FinderRow where
  path : List String
  kind : FmKind
  writable : Bool
deriving DecidableEq, Repr

/-- The tree-finder `Content` wrapper as used by the commands: the row
plus the `hasChildren` flag. `pathstr` and `getPathAtDepth` are the
interface of the external tree-finder library, with a path being an
ordered sequence of segments as in the data model of the spec. -/
structure Content where
  row : FinderRow
  hasChildren : Bool
deriving DecidableEq, Repr

/-- Tree-finder `content.pathstr`: the path segments joined by a slash. -/
def Content.pathstr (c : Content) : String :=
  joinWith "/" c.row.path

/-- Tree-finder `content.getPathAtDepth(depth)`: the path segments from
the given depth on. -/
def Content.getPathAtDepth (c : Content) (depth : Nat) : List String :=
  c.row.path.drop depth

/-- The slice of the tree-finder model the commands read: the current
selection and the last-selected content. -/
structure TreeModel where
  selection : List Content
  selectedLast : Option Content
deriving DecidableEq, Repr

/-- The slice of a `TreeFinderSidebar` widget the commands read. -/
structure Widget where
  model : Option TreeModel
  url : Option String
deriving DecidableEq, Repr

/-- The slice of `TreeFinderTracker` the commands read. -/
structure Tracker where
  currentWidget : Option Widget
deriving DecidableEq, Repr

/-- The error taxonomy of the spec. -/
inductive FmError where
  | UnsupportedOperation
  | PermissionDenied
  | EmptyClipboard
  | NameConflict
  | NotFound
  | Conflict
deriving DecidableEq, Repr

/-- The resource descriptor (`IFSResource`) fields used by
`idFromResource`: `name` and `drive`. -/
structure IFSResource where
  name : String
  drive : String
deriving DecidableEq, Repr

/-- JavaScript `String.prototype.split(sep)` for a one-character
separator, on the character list of a string. -/
def splitChar (sep : Char) : List Char → List (List Char)
  | [] => [[]]
  | c :: cs =>
    match splitChar sep cs with
    | [] => [[]]
    | w :: ws => if c = sep then [] :: w :: ws else (c :: w) :: ws

/-- Source `idFromResource`:
`[resource.name.split(" ").join(""), resource.drive].join("_")`. -/
def idFromResource (resource : IFSResource) : String :=
  joinWith "_" [⟨(splitChar ' ' resource.name.data).flatten⟩, resource.drive]

/-- Source `currentWidgetSelectionIsWritable`: false without a current
widget, false when the optional chain to the model yields nothing, and
otherwise `selection.every(x => x.row.writable)`. An empty selection
array is truthy in JavaScript, so it reaches the `every` call. -/
def currentWidgetSelectionIsWritable (tracker : Tracker) : Bool :=
  match tracker.currentWidget with
  | none => false
  | some w =>
    match w.model with
    | none => false
    | some m => m.selection.all (fun x => x.row.writable)

/-- Source `commandIDs.cut` `isEnabled`. -/
def cut_isEnabled (tracker : Tracker) : Bool :=
  currentWidgetSelectionIsWritable tracker

/-- Source `commandIDs.delete` `isEnabled`. -/
def delete_isEnabled (tracker : Tracker) : Bool :=
  currentWidgetSelectionIsWritable tracker

/-- Source `commandIDs.rename` `isEnabled`. -/
def rename_isEnabled (tracker : Tracker) : Bool :=
  currentWidgetSelectionIsWritable tracker

/-- Source `commandIDs.copy` `isVisible`: false without a widget, false
when some selected row has kind `dir`, else true. When the optional chain
to the model yields nothing the guard condition is falsy and the command
stays visible. -/
def copy_isVisible (tracker : Tracker) : Bool :=
  match tracker.currentWidget with
  | none => false
  | some w =>
    match w.model with
    | none => true
    | some m => !(m.selection.any (fun v => v.row.kind == FmKind.dir))

/-- Source `commandIDs.rename` `execute`: takes `selection![0]` as the
rename target and starts editing it (`doRename`). Returns the content put
into the editing state, or none when the selection is empty (no editing
starts; there is no selection-size check in the handler). -/
def rename_execute (selection : List Content) : Option Content :=
  selection.head?

/-- Source `_getRelativePaths`: for each selected file, push
`file.getPathAtDepth(1).join("/")` onto the accumulator. -/
def _getRelativePaths (selectedFiles : List Content) : List String :=
  selectedFiles.foldl
    (fun allPaths file => allPaths ++ [joinWith "/" (file.getPathAtDepth 1)]) []

/-- Source `commandIDs.copyFullPath` local `trimEnd`:
`path.trimEnd().replace(/\/+$/, "")`, i.e. drop trailing whitespace, then
drop trailing slash characters. -/
def trimEnd (path : String) : String :=
  ⟨(((path.data.reverse.dropWhile (fun c => c.isWhitespace)).dropWhile
    (fun c => c = '/')).reverse)⟩

/-- Source `commandIDs.copyFullPath` `execute`: the text written to the
system clipboard, `fullPaths.join("\n")` where each full path is
`[trimEnd(widget.url ?? ""), relativePath].join("/")`. -/
def copyFullPath_text (url : Option String) (selection : List Content) : String :=
  joinWith "\n" ((_getRelativePaths selection).map
    (fun relativePath => joinWith "/" [trimEnd (url.getD ""), relativePath]))

/-- Source `commandIDs.copyRelativePath` `execute`: the text written to
the system clipboard, `relativePaths.join("\n")`. -/
def copyRelativePath_text (selection : List Content) : String :=
  joinWith "\n" (_getRelativePaths selection)

/-- A backend download request as issued by `commandIDs.download`
`execute`: `widget.download(s.pathstr, s.hasChildren)`. -/
structure DownloadCall where
  path : String
  isContainer : Bool
deriving DecidableEq, Repr

/-- `Promise.allSettled` over one backend request per element: every
request settles, and the combined promise resolves with one settled
outcome per element, success or failure alike. -/
def allSettled (outcome : α → Except ε β) (xs : List α) : List (Except ε β) :=
  xs.map outcome

/-- The per-item download requests of `commandIDs.download` `execute`. -/
def download_calls (selection : List Content) : List DownloadCall :=
  selection.map (fun s => ⟨s.pathstr, s.hasChildren⟩)

/-- Source `commandIDs.download` `execute`:
`await Promise.allSettled(selection.map(s => widget.download(s.pathstr, s.hasChildren)))`,
with the backend outcome of each request abstracted as a function. -/
def download_execute (outcome : DownloadCall → Except FmError Unit)
    (selection : List Content) : List (Except FmError Unit) :=
  allSettled outcome (download_calls selection)

/-- Modelled from the spec: a `Resource` as the clipboard engine sees it
(the engine itself, `JupyterClipboard`, is not among the provided
sources). Attributes used by the clipboard operations: `name`, `path`,
`kind`, `writable`. -/
structure Resource where
  name : String
  path : List String
  kind : FmKind
  writable : Bool
deriving DecidableEq, Repr

/-- Modelled from the spec: the mode of a pending clipboard buffer. -/
inductive ClipMode where
  | copy
  | cut
deriving DecidableEq, Repr

/-- Modelled from the spec: the `ClipboardBuffer`, at most one pending
operation of the form mode plus ordered item list. -/
structure ClipBuffer where
  mode : ClipMode
  items : List Resource
deriving DecidableEq, Repr

/-- Modelled from the spec: the clipboard engine state, an optional
pending buffer. -/
structure ClipState where
  buffer : Option ClipBuffer
deriving DecidableEq, Repr

/-- Modelled from the spec: one request issued to the Content Backend. -/
inductive BackendCall where
  | copy (src : List String) (destContainer : List String) (destName : String)
  | move (src : List String) (destContainer : List String)
  | delete (path : List String)
deriving DecidableEq, Repr

/-- Modelled from the spec: the outcome of one engine operation — the
clipboard state afterwards, the backend requests issued, and the
validation error if the operation was blocked before any backend call. -/
structure OpResult where
  state : ClipState
  calls : List BackendCall
  error : Option FmError
deriving DecidableEq, Repr

/-- Modelled from the spec: a paste target container, its path and the
names currently present among its children. -/
structure Target where
  path : List String
  names : List String
deriving DecidableEq, Repr

/-- Modelled from the spec: the candidate names tried by the collision
policy — the original name first, then the name with numeric suffixes. -/
def candidateName (name : String) (k : Nat) : String :=
  if k = 0 then name else name ++ ("-" ++ toString k)

/-- Modelled from the spec: try candidate names in order until one is not
taken. The fuel bound `length + 1` suffices since at most `length` names
are taken. -/
def disambigLoop (taken : List String) (name : String) : Nat → Nat → String
  | k, 0 => candidateName name k
  | k, fuel + 1 =>
    if candidateName name k ∈ taken then disambigLoop taken name (k + 1) fuel
    else candidateName name k

/-- Modelled from the spec: the disambiguation policy — keep the name
unless a collision exists, else append a numeric suffix until unique. -/
def disambiguate (taken : List String) (name : String) : String :=
  disambigLoop taken name 0 (taken.length + 1)

/-- Modelled from the spec: paste the buffered items one after the other
into a container, disambiguating each name against the names present at
that point, and record one backend copy request per item. -/
def pasteItems (tgt : Target) (items : List Resource) :
    List String × List BackendCall :=
  items.foldl
    (fun acc it =>
      let nm := disambiguate acc.1 it.name
      (acc.1 ++ [nm], acc.2 ++ [BackendCall.copy it.path tgt.path nm]))
    (tgt.names, [])

/-- Modelled from the spec: `copySelection` — fails with
`UnsupportedOperation` when any selected item has kind dir, leaving the
buffer unchanged; otherwise stores a copy-mode buffer holding the
selection, replacing any prior buffer. No backend request either way. -/
def copySelection (selection : List Resource) (st : ClipState) : OpResult :=
  if selection.any (fun x => x.kind == FmKind.dir) then
    ⟨st, [], some FmError.UnsupportedOperation⟩
  else
    ⟨⟨some ⟨ClipMode.copy, selection⟩⟩, [], none⟩

/-- Modelled from the spec: `cutSelection` — requires every item
writable, failing with `PermissionDenied` otherwise with the buffer
unchanged; on success stores a cut-mode buffer. No backend request. -/
def cutSelection (selection : List Resource) (st : ClipState) : OpResult :=
  if selection.all (fun x => x.writable) then
    ⟨⟨some ⟨ClipMode.cut, selection⟩⟩, [], none⟩
  else
    ⟨st, [], some FmError.PermissionDenied⟩

/-- Modelled from the spec: `deleteSelection` — requires every item
writable, failing with `PermissionDenied` before any backend call
otherwise; on success issues one backend delete per item. -/
def deleteSelection (selection : List Resource) (st : ClipState) : OpResult :=
  if selection.all (fun x => x.writable) then
    ⟨st, selection.map (fun x => BackendCall.delete x.path), none⟩
  else
    ⟨st, [], some FmError.PermissionDenied⟩

/-- Modelled from the spec: the outcome of `pasteSelection` — state and
target afterwards, backend requests, validation error. Backend requests
themselves are modelled as succeeding. -/
structure PasteResult where
  state : ClipState
  target : Target
  calls : List BackendCall
  error : Option FmError
deriving DecidableEq, Repr

/-- Modelled from the spec: `pasteSelection` — requires a non-empty
buffer, failing with `EmptyClipboard` otherwise. Copy mode issues one
backend copy per item under a disambiguated name and keeps the buffer;
cut mode issues one backend move per item and clears the buffer
(single-use). -/
def pasteSelection (st : ClipState) (tgt : Target) : PasteResult :=
  match st.buffer with
  | none => ⟨st, tgt, [], some FmError.EmptyClipboard⟩
  | some b =>
    match b.mode with
    | ClipMode.copy =>
      let r := pasteItems tgt b.items
      ⟨st, ⟨tgt.path, r.1⟩, r.2, none⟩
    | ClipMode.cut =>
      ⟨⟨none⟩, ⟨tgt.path, tgt.names ++ b.items.map (fun it => it.name)⟩,
        b.items.map (fun it => BackendCall.move it.path tgt.path), none⟩

/-- Source `commandIDs.create_folder` `execute`, target resolution:
`model.selectedLast ?? model.root`, then if the target has no children
replace it by its parent. The parent lookup (`getContentParent`, not
among the provided sources) is modelled from the spec: the parent path is
the path minus its last segment. The result is the path the new folder is
created under. -/
def create_folder_target_path (selectedLast : Option Content) (root : Content) :
    List String :=
  let target := selectedLast.getD root
  if target.hasChildren then target.row.path else target.row.path.dropLast

/-- The observable effects of `commandIDs.create_folder` `execute`: the
resolved target path, the backend `newUntitled` directory request, the
invalidated node, and the node put into the rename editing state
(`doRename`). The backend helpers (`newUntitled`, `revealAndSelectPath`,
`doRename`) are outside the provided sources; modelled from the spec,
with the backend returning a fresh row named `untitledName` under the
target. -/
structure CreateFolderTrace where
  targetPath : List String
  createCallPath : List String
  invalidatedPath : List String
  renameTargetPath : List String
deriving DecidableEq, Repr

/-- Source `commandIDs.create_folder` `execute`, effect trace: resolve
the target, request an untitled directory under its path, invalidate the
target, then immediately start renaming the new node. -/
def create_folder_execute (selectedLast : Option Content) (root : Content)
    (untitledName : String) : CreateFolderTrace :=
  let tpath := create_folder_target_path selectedLast root
  ⟨tpath, tpath, tpath, tpath ++ [untitledName]⟩

/-- Sample resources and contents used by concrete witnesses below. -/
def dirResource : Resource := ⟨"docs", ["docs"], FmKind.dir, true⟩

def fileResource : Resource := ⟨"a.txt", ["a.txt"], FmKind.file, true⟩

def readonlyResource : Resource := ⟨"b.txt", ["b.txt"], FmKind.file, false⟩

def priorBuffer : ClipBuffer := ⟨ClipMode.copy, [fileResource]⟩

def fileContentA : Content := ⟨⟨["root", "a.txt"], FmKind.file, true⟩, false⟩

def fileContentB : Content := ⟨⟨["root", "b.txt"], FmKind.file, true⟩, false⟩

def dirContentD : Content := ⟨⟨["root", "docs"], FmKind.dir, true⟩, true⟩

def rootContent : Content := ⟨⟨["root"], FmKind.dir, true⟩, true⟩

def twoSelectionTracker : Tracker :=
  ⟨some ⟨some ⟨[fileContentA, fileContentB], some fileContentB⟩, some "u"⟩⟩

theorem joinWith_pair (sep a b : String) : joinWith sep [a, b] = a ++ sep ++ b := rfl

theorem foldl_push_eq_map {α β : Type} (g : α → β) :
    ∀ (l : List α) (acc : List β),
      l.foldl (fun a x => a ++ [g x]) acc = acc ++ l.map g
  | [], acc => by simp
  | x :: xs, acc => by
    simp only [List.foldl_cons, List.map_cons]
    rw [foldl_push_eq_map g xs]
    simp

theorem splitChar_ne_nil (sep : Char) : ∀ cs : List Char, splitChar sep cs ≠ []
  | [] => by simp [splitChar]
  | c :: cs => by
    have ih := splitChar_ne_nil sep cs
    unfold splitChar
    cases h : splitChar sep cs with
    | nil => exact absurd h ih
    | cons w ws => by_cases hc : c = sep <;> simp [hc]

theorem splitChar_flatten (sep : Char) :
    ∀ cs : List Char, (splitChar sep cs).flatten = cs.filter (fun c => c != sep)
  | [] => by simp [splitChar]
  | c :: cs => by
    have ih := splitChar_flatten sep cs
    unfold splitChar
    cases h : splitChar sep cs with
    | nil => exact absurd h (splitChar_ne_nil sep cs)
    | cons w ws =>
      rw [h] at ih
      by_cases hc : c = sep <;>
        simp [hc, List.filter_cons, ← ih, List.flatten_cons]

theorem string_ne_append_of_length_pos (s t : String) (h : 0 < t.length) :
    s ≠ s ++ t := by
  intro he
  have hl := congrArg String.length he
  rw [String.length_append] at hl
  omega

theorem string_append_left_cancel (s t u : String) (h : s ++ t = s ++ u) :
    t = u := by
  have hd := congrArg String.data h
  rw [String.data_append, String.data_append] at hd
  exact String.ext (List.append_cancel_left hd)

theorem two_le_length_of_mem_ne {α : Type} [DecidableEq α] {a b : α}
    {l : List α} (ha : a ∈ l) (hb : b ∈ l) (hab : a ≠ b) : 2 ≤ l.length := by
  have hb' : b ∈ l.erase a := (List.mem_erase_of_ne (Ne.symm hab)).mpr hb
  have h1 : 0 < (l.erase a).length := List.length_pos.mpr (List.ne_nil_of_mem hb')
  have h2 : (l.erase a).length = l.length - 1 := List.length_erase_of_mem ha
  omega

theorem candidateName_zero (name : String) : candidateName name 0 = name := by
  simp [candidateName]

theorem candidateName_one (name : String) :
    candidateName name 1 = name ++ "-1" := by
  have h : ("-" ++ toString (1 : Nat)) = "-1" := by decide
  simp [candidateName, h]

theorem candidateName_two (name : String) :
    candidateName name 2 = name ++ "-2" := by
  have h : ("-" ++ toString (2 : Nat)) = "-2" := by decide
  simp [candidateName, h]

theorem disambiguate_of_not_mem (taken : List String) (name : String)
    (h : name ∉ taken) : disambiguate taken name = name := by
  unfold disambiguate
  simp [disambigLoop, candidateName_zero, h]

theorem disambiguate_of_mem_one (taken : List String) (name : String)
    (h0 : name ∈ taken) (h1 : name ++ "-1" ∉ taken) :
    disambiguate taken name = name ++ "-1" := by
  obtain ⟨m, hm⟩ : ∃ m, taken.length = m + 1 :=
    ⟨taken.length - 1, by
      have := List.length_pos.mpr (List.ne_nil_of_mem h0); omega⟩
  unfold disambiguate
  rw [hm]
  simp [disambigLoop, candidateName_zero, candidateName_one, h0, h1]

theorem disambiguate_of_mem_two (taken : List String) (name : String)
    (h0 : name ∈ taken) (h1 : name ++ "-1" ∈ taken)
    (h2 : name ++ "-2" ∉ taken) :
    disambiguate taken name = name ++ "-2" := by
  have hne : name ≠ name ++ "-1" :=
    string_ne_append_of_length_pos name "-1" (by decide)
  obtain ⟨m, hm⟩ : ∃ m, taken.length = m + 2 :=
    ⟨taken.length - 2, by
      have := two_le_length_of_mem_ne h0 h1 hne; omega⟩
  unfold disambiguate
  rw [hm]
  simp [disambigLoop, candidateName_zero, candidateName_one, candidateName_two,
    h0, h1, h2]

/-- Claim C1: for every selection containing an item of kind dir, the copy
operation fails with UnsupportedOperation before any backend request and
leaves any prior clipboard buffer unchanged; for selections with only
files it stores a copy-mode buffer holding the selection, replacing any
prior buffer. The in-source visibility guard likewise hides copy whenever
some selected row has kind dir. -/
theorem claim_c1_copy_guard (selection : List Resource) (st : ClipState) :
    ((∃ x ∈ selection, x.kind = FmKind.dir) →
      copySelection selection st = ⟨st, [], some FmError.UnsupportedOperation⟩) ∧
    ((∀ x ∈ selection, x.kind ≠ FmKind.dir) →
      copySelection selection st =
        ⟨⟨some ⟨ClipMode.copy, selection⟩⟩, [], none⟩) ∧
    (∀ (csel : List Content) (url : Option String) (last : Option Content),
      (∃ c ∈ csel, c.row.kind = FmKind.dir) →
      copy_isVisible ⟨some ⟨some ⟨csel, last⟩, url⟩⟩ = false) := by
  refine ⟨?_, ?_, ?_⟩
  · rintro ⟨x, hx, hk⟩
    have h : selection.any (fun x => x.kind == FmKind.dir) = true :=
      List.any_eq_true.mpr ⟨x, hx, by simp [hk]⟩
    simp [copySelection, h]
  · intro h
    have h2 : selection.any (fun x => x.kind == FmKind.dir) = false := by
      rw [List.any_eq_false]
      intro x hx
      simp [h x hx]
    simp [copySelection, h2]
  · rintro csel url last ⟨c, hc, hk⟩
    have h : csel.any (fun v => v.row.kind == FmKind.dir) = true :=
      List.any_eq_true.mpr ⟨c, hc, by simp [hk]⟩
    simp [copy_isVisible, h]

theorem claim_c1_copy_guard_witness :
    copySelection [dirResource] ⟨some priorBuffer⟩ =
      ⟨⟨some priorBuffer⟩, [], some FmError.UnsupportedOperation⟩ ∧
    copySelection [fileResource] ⟨some priorBuffer⟩ =
      ⟨⟨some ⟨ClipMode.copy, [fileResource]⟩⟩, [], none⟩ := by
  constructor
  · exact (claim_c1_copy_guard [dirResource] ⟨some priorBuffer⟩).1
      ⟨dirResource, by decide, by decide⟩
  · exact (claim_c1_copy_guard [fileResource] ⟨some priorBuffer⟩).2.1
      (by decide)

/-- Claim C4: the cut and delete operations require every selected item
writable, and fail with PermissionDenied — with no backend call issued —
whenever some selected item is not writable; the in-source enablement
predicate for cut and delete is likewise false then. -/
theorem claim_c4_cut_delete_writable (selection : List Resource)
    (st : ClipState) :
    ((∃ x ∈ selection, x.writable = false) →
      cutSelection selection st = ⟨st, [], some FmError.PermissionDenied⟩ ∧
      deleteSelection selection st = ⟨st, [], some FmError.PermissionDenied⟩) ∧
    ((∀ x ∈ selection, x.writable = true) →
      (cutSelection selection st).error = none ∧
      (deleteSelection selection st).error = none) ∧
    (∀ (csel : List Content) (url : Option String) (last : Option Content),
      (∃ c ∈ csel, c.row.writable = false) →
      cut_isEnabled ⟨some ⟨some ⟨csel, last⟩, url⟩⟩ = false ∧
      delete_isEnabled ⟨some ⟨some ⟨csel, last⟩, url⟩⟩ = false) := by
  refine ⟨?_, ?_, ?_⟩
  · rintro ⟨x, hx, hw⟩
    have h : selection.all (fun x => x.writable) = false := by
      rw [List.all_eq_false]
      exact ⟨x, hx, by simp [hw]⟩
    exact ⟨by simp [cutSelection, h], by simp [deleteSelection, h]⟩
  · intro h
    have h2 : selection.all (fun x => x.writable) = true :=
      List.all_eq_true.mpr (fun x hx => h x hx)
    exact ⟨by simp [cutSelection, h2], by simp [deleteSelection, h2]⟩
  · rintro csel url last ⟨c, hc, hw⟩
    have h : csel.all (fun x => x.row.writable) = false := by
      rw [List.all_eq_false]
      exact ⟨c, hc, by simp [hw]⟩
    exact ⟨by simp [cut_isEnabled, currentWidgetSelectionIsWritable, h],
      by simp [delete_isEnabled, currentWidgetSelectionIsWritable, h]⟩

theorem claim_c4_cut_delete_writable_witness :
    cutSelection [readonlyResource] ⟨some priorBuffer⟩ =
      ⟨⟨some priorBuffer⟩, [], some FmError.PermissionDenied⟩ ∧
    deleteSelection [readonlyResource] ⟨some priorBuffer⟩ =
      ⟨⟨some priorBuffer⟩, [], some FmError.PermissionDenied⟩ := by
  exact (claim_c4_cut_delete_writable [readonlyResource] ⟨some priorBuffer⟩).1
    ⟨readonlyResource, by decide, by decide⟩

/-- Claim C2: a cut clipboard buffer is single-use — for every selection
of writable items, cutSelection succeeds, a subsequent pasteSelection
succeeds and clears the buffer, and a second pasteSelection with no
intervening copy or cut fails with EmptyClipboard. -/
theorem claim_c2_cut_single_use (selection : List Resource) (st : ClipState)
    (tgt tgt2 : Target) (h : ∀ x ∈ selection, x.writable = true) :
    (cutSelection selection st).error = none ∧
    (pasteSelection (cutSelection selection st).state tgt).error = none ∧
    (pasteSelection (cutSelection selection st).state tgt).state.buffer = none ∧
    pasteSelection
        (pasteSelection (cutSelection selection st).state tgt).state tgt2 =
      ⟨(pasteSelection (cutSelection selection st).state tgt).state, tgt2, [],
        some FmError.EmptyClipboard⟩ := by
  have hall : selection.all (fun x => x.writable) = true :=
    List.all_eq_true.mpr (fun x hx => h x hx)
  simp [cutSelection, hall, pasteSelection]

theorem claim_c2_cut_single_use_witness :
    fileResource.writable = true ∧
    (cutSelection [fileResource] ⟨none⟩).error = none ∧
    (pasteSelection (cutSelection [fileResource] ⟨none⟩).state
      ⟨["c"], []⟩).state.buffer = none ∧
    (pasteSelection
        (pasteSelection (cutSelection [fileResource] ⟨none⟩).state
          ⟨["c"], []⟩).state ⟨["c"], []⟩).error =
      some FmError.EmptyClipboard := by
  have h : ∀ x ∈ [fileResource], x.writable = true := by decide
  have main := claim_c2_cut_single_use [fileResource] ⟨none⟩ ⟨["c"], []⟩
    ⟨["c"], []⟩ h
  exact ⟨by decide, main.1, main.2.2.1, by rw [main.2.2.2]⟩

/-- Claim C3: for every copy-mode paste into a target container, each item
keeps its name unless a sibling collision exists, in which case a numeric
suffix is appended until the name is unique; pasting the same copy buffer
twice into the same target yields two distinct resources named name and
name-1 (a further collision yields name-2), and the copy buffer survives
the paste. -/
theorem claim_c3_paste_disambiguation (it : Resource) (tgt : Target)
    (h1 : it.name ∉ tgt.names) (h2 : it.name ++ "-1" ∉ tgt.names) :
    (∀ (taken : List String) (nm : String), nm ∉ taken →
      disambiguate taken nm = nm) ∧
    (∀ (taken : List String) (nm : String), nm ∈ taken →
      nm ++ "-1" ∉ taken → disambiguate taken nm = nm ++ "-1") ∧
    (∀ (taken : List String) (nm : String), nm ∈ taken →
      nm ++ "-1" ∈ taken → nm ++ "-2" ∉ taken →
      disambiguate taken nm = nm ++ "-2") ∧
    (pasteSelection ⟨some ⟨ClipMode.copy, [it]⟩⟩ tgt).target.names =
      tgt.names ++ [it.name] ∧
    (pasteSelection ⟨some ⟨ClipMode.copy, [it]⟩⟩ tgt).state =
      ⟨some ⟨ClipMode.copy, [it]⟩⟩ ∧
    (pasteSelection (pasteSelection ⟨some ⟨ClipMode.copy, [it]⟩⟩ tgt).state
        (pasteSelection ⟨some ⟨ClipMode.copy, [it]⟩⟩ tgt).target).target.names =
      tgt.names ++ [it.name, it.name ++ "-1"] ∧
    it.name ≠ it.name ++ "-1" := by
  have hne : it.name ≠ it.name ++ "-1" :=
    string_ne_append_of_length_pos it.name "-1" (by decide)
  refine ⟨disambiguate_of_not_mem, disambiguate_of_mem_one,
    disambiguate_of_mem_two, ?_, ?_, ?_, hne⟩
  · simp [pasteSelection, pasteItems, disambiguate_of_not_mem tgt.names it.name h1]
  · simp [pasteSelection]
  · have hmem : it.name ∈ tgt.names ++ [it.name] := by simp
    have hnot : it.name ++ "-1" ∉ tgt.names ++ [it.name] := by
      simp [h2, Ne.symm hne]
    simp [pasteSelection, pasteItems,
      disambiguate_of_not_mem tgt.names it.name h1,
      disambiguate_of_mem_one (tgt.names ++ [it.name]) it.name hmem hnot]

theorem claim_c3_paste_disambiguation_witness :
    ("a.txt" ∉ (["b.txt"] : List String)) ∧
    ("a.txt" ++ "-1" ∉ (["b.txt"] : List String)) ∧
    (pasteSelection
        (pasteSelection ⟨some ⟨ClipMode.copy, [fileResource]⟩⟩ ⟨["c"], ["b.txt"]⟩).state
        (pasteSelection ⟨some ⟨ClipMode.copy, [fileResource]⟩⟩
          ⟨["c"], ["b.txt"]⟩).target).target.names =
      ["b.txt", "a.txt", "a.txt" ++ "-1"] := by
  have h1 : fileResource.name ∉ (["b.txt"] : List String) := by decide
  have h2 : fileResource.name ++ "-1" ∉ (["b.txt"] : List String) := by decide
  have main := claim_c3_paste_disambiguation fileResource ⟨["c"], ["b.txt"]⟩ h1 h2
  refine ⟨h1, h2, ?_⟩
  have := main.2.2.2.2.2.1
  simpa [fileResource] using this

/-- Claim C5: create-folder resolves its creation target as the
last-selected directory, or the parent directory when the last-selected
item is a file, or the tree root when there is no selection — with no
selection the new entry is created directly under root; on success the
target is invalidated and the new node is put into the rename editing
state. Directories are the contents with children, per the tree
invariant relating `hasChildren` to kind `dir`. -/
theorem claim_c5_create_folder_target (selectedLast : Option Content)
    (root : Content) (untitledName : String)
    (hroot : root.hasChildren = true) :
    (∀ c, selectedLast = some c →
      c.hasChildren = (c.row.kind == FmKind.dir) →
      create_folder_target_path selectedLast root =
        (if c.row.kind = FmKind.dir then c.row.path else c.row.path.dropLast)) ∧
    (selectedLast = none →
      create_folder_target_path selectedLast root = root.row.path ∧
      (create_folder_execute selectedLast root untitledName).createCallPath =
        root.row.path ∧
      (create_folder_execute selectedLast root untitledName).renameTargetPath =
        root.row.path ++ [untitledName]) ∧
    (create_folder_execute selectedLast root untitledName).invalidatedPath =
      create_folder_target_path selectedLast root ∧
    (create_folder_execute selectedLast root untitledName).renameTargetPath =
      create_folder_target_path selectedLast root ++ [untitledName] := by
  refine ⟨?_, ?_, rfl, rfl⟩
  · intro c hc hinv
    subst hc
    cases hk : c.row.kind with
    | dir =>
      have hch : c.hasChildren = true := by simp [hinv, hk]
      simp [create_folder_target_path, hch]
    | file =>
      have hch : c.hasChildren = false := by simp [hinv, hk]
      simp [create_folder_target_path, hch]
  · intro hc
    subst hc
    simp [create_folder_target_path, create_folder_execute, hroot]

theorem claim_c5_create_folder_target_witness :
    rootContent.hasChildren = true ∧
    create_folder_target_path none rootContent = ["root"] ∧
    create_folder_target_path (some dirContentD) rootContent =
      ["root", "docs"] ∧
    create_folder_target_path (some fileContentA) rootContent = ["root"] ∧
    (create_folder_execute none rootContent "Untitled Folder").renameTargetPath =
      ["root", "Untitled Folder"] := by
  have hroot : rootContent.hasChildren = true := by decide
  refine ⟨hroot, ?_, ?_, ?_, ?_⟩
  · exact ((claim_c5_create_folder_target none rootContent "u" hroot).2.1 rfl).1
  · have h := (claim_c5_create_folder_target (some dirContentD) rootContent "u"
      hroot).1 dirContentD rfl (by decide)
    simpa [dirContentD] using h
  · have h := (claim_c5_create_folder_target (some fileContentA) rootContent "u"
      hroot).1 fileContentA rfl (by decide)
    simpa [fileContentA] using h
  · exact ((claim_c5_create_folder_target none rootContent "Untitled Folder"
      hroot).2.1 rfl).2.2

/-- Claim C7: download issues one backend request per selected item, with
the container flag set exactly when the item has children, and the
operation resolves with one settled outcome per item — success or
failure alike — so the caller sees completion only once every item has
settled. -/
theorem claim_c7_download (selection : List Content)
    (outcome : DownloadCall → Except FmError Unit) (i : Nat) :
    (download_calls selection).length = selection.length ∧
    (download_calls selection)[i]? =
      (selection[i]?).map (fun s => ⟨s.pathstr, s.hasChildren⟩) ∧
    (download_execute outcome selection).length = selection.length ∧
    (download_execute outcome selection)[i]? =
      (selection[i]?).map (fun s =>
        outcome ⟨s.pathstr, s.hasChildren⟩) := by
  refine ⟨by simp [download_calls], by simp [download_calls], ?_, ?_⟩
  · simp [download_execute, allSettled, download_calls]
  · simp [download_execute, allSettled, download_calls, Option.map_map]
    rfl

/-- Claim C6, counterexample: on a selection of two writable files the
rename command does not fail with UnsupportedOperation — its handler has
no failure outcome at all; it starts editing the first selected item, and
its enablement predicate reports it enabled. -/
theorem claim_c6_counterexample :
    rename_execute [fileContentA, fileContentB] = some fileContentA ∧
    rename_isEnabled twoSelectionTracker = true := by decide

/-- Claim C6, amended: the rename handler has no selection-size guard.
For any non-empty selection it puts the first selected item into the
editing state, whatever the selection size; for an empty selection no
editing starts; enablement only requires every selected item writable. -/
theorem claim_c6_amended :
    (∀ (c : Content) (rest : List Content),
      rename_execute (c :: rest) = some c) ∧
    rename_execute ([] : List Content) = none ∧
    (∀ tracker : Tracker,
      rename_isEnabled tracker = currentWidgetSelectionIsWritable tracker) :=
  ⟨fun _ _ => rfl, rfl, fun _ => rfl⟩

/-- Claim C8: the selection-writability predicate is false whenever there
is no current widget or the widget has no model, and true for an empty
selection (the every-item check is vacuous), so cut, delete and rename
are reported enabled with nothing selected. -/
theorem claim_c8_writable_predicate :
    currentWidgetSelectionIsWritable ⟨none⟩ = false ∧
    (∀ url, currentWidgetSelectionIsWritable ⟨some ⟨none, url⟩⟩ = false) ∧
    (∀ url last,
      currentWidgetSelectionIsWritable ⟨some ⟨some ⟨[], last⟩, url⟩⟩ = true) ∧
    (∀ url last,
      cut_isEnabled ⟨some ⟨some ⟨[], last⟩, url⟩⟩ = true ∧
      delete_isEnabled ⟨some ⟨some ⟨[], last⟩, url⟩⟩ = true ∧
      rename_isEnabled ⟨some ⟨some ⟨[], last⟩, url⟩⟩ = true) :=
  ⟨rfl, fun _ => rfl, fun _ _ => rfl, fun _ _ => ⟨rfl, rfl, rfl⟩⟩

/-- Claim C9: copy-relative-path emits one line per selected item, each
line being the item path segments from depth 1 joined by a slash, the
lines joined by newline; copy-full-path emits the same lines each
prefixed by the widget URL — trailing whitespace and trailing slash
characters stripped — joined to the relative path by a single slash. -/
theorem claim_c9_path_copy (selection : List Content) (url : Option String) :
    _getRelativePaths selection =
      selection.map (fun f => joinWith "/" (f.row.path.drop 1)) ∧
    (_getRelativePaths selection).length = selection.length ∧
    copyRelativePath_text selection =
      joinWith "\n" (selection.map (fun f => joinWith "/" (f.row.path.drop 1))) ∧
    copyFullPath_text url selection =
      joinWith "\n" (selection.map (fun f =>
        trimEnd (url.getD "") ++ "/" ++ joinWith "/" (f.row.path.drop 1))) := by
  have h1 : _getRelativePaths selection =
      selection.map (fun f => joinWith "/" (f.row.path.drop 1)) := by
    rw [_getRelativePaths,
      foldl_push_eq_map (fun file => joinWith "/" (file.getPathAtDepth 1))
        selection []]
    simp [Content.getPathAtDepth]
  refine ⟨h1, by rw [h1]; simp, by rw [copyRelativePath_text, h1], ?_⟩
  rw [copyFullPath_text, h1, List.map_map]
  congr 1

/-- Claim C10: idFromResource maps a resource to its name with all space
characters removed, joined to the drive identifier by an underscore; the
mapping is not injective — two resources on the same drive whose names
differ only in spaces receive the same id. -/
theorem claim_c10_id_from_resource (r : IFSResource) :
    idFromResource r =
      (⟨r.name.data.filter (fun c => c != ' ')⟩ : String) ++ "_" ++ r.drive ∧
    idFromResource ⟨"a b", "d"⟩ = idFromResource ⟨"ab", "d"⟩ ∧
    ("a b" : String) ≠ "ab" := by
  refine ⟨?_, by decide, by decide⟩
  rw [idFromResource, joinWith_pair, splitChar_flatten]
